import Mathlib

/-!
Shallow embedding of `pulser-core/pulser/register/special_layouts.py`.

Coordinates are modelled as pairs of rationals (the Python code works with
floats; every comparison the code performs on them is exact arithmetic on
the sampled/generated values).  The comparison `dist > s` on a Euclidean
distance is embedded through squares: for real points, `dist p q > s` holds
iff `s < 0 ∨ s ^ 2 < sqDist p q`, since `dist ≥ 0`.

The geometric pattern primitives (`square_rect`, `triangular_hex`,
`triangular_rect` from `pulser/register/_patterns.py`) and the
`RegisterLayout` base class (`register_layout.py`) are not part of the
sources; they are modelled from the spec where noted, faithful to its words
(ordered sequences of unscaled 2D points; exact-coordinate trap lookup that
fails when a coordinate has no matching trap).  For the triangular patterns
the second coordinate is stored in units of the triangular row height
(√3/2); this affects no claim below, which concern counts, ordering,
scaling and exact-coordinate matching only.

The random source consumed by `RandomLayout.__init__` (`np.random.uniform`)
is modelled as an explicit finite trace of candidate points: the loop is a
function of the trace, and theorems quantify over all traces.  A trace that
runs out before the loop's own exit condition holds is reported as `none`.
-/

namespace Pulser

/-- A 2D coordinate. -/
abbrev Point : Type := ℚ × ℚ

/-- Squared Euclidean distance between two points. -/
def sqDist (p q : Point) : ℚ := (p.1 - q.1) ^ 2 + (p.2 - q.2) ^ 2

/-- Squared Euclidean norm (squared distance from the origin). -/
def sqNorm (p : Point) : ℚ := p.1 ^ 2 + p.2 ^ 2

/-- Scale the x-coordinates of a list of points by `xs` and the
y-coordinates by `ys` (the layout constructors' in-place scaling of the
pattern arrays: `pts[:, 0] *= xs; pts[:, 1] *= ys`). -/
def scalePts (xs ys : ℚ) (pts : List Point) : List Point :=
  pts.map (fun p => (p.1 * xs, p.2 * ys))

/-- Modelled from the spec: the canonical unit rectangular grid generator
`patterns.square_rect(rows, columns)` (its source file
`pulser/register/_patterns.py` is not among the sources).  It returns the
`rows * columns` points of a unit-spacing rectangular grid as an ordered
sequence, row-major. -/
def square_rect (rows columns : ℕ) : List Point :=
  (List.range rows).flatMap
    (fun y => (List.range columns).map (fun x => (((x : ℕ) : ℚ), ((y : ℕ) : ℚ))))

/-- The six axial-coordinate steps around a hexagonal ring,
counter-clockwise. -/
def hexDirs : List (ℤ × ℤ) := [(-1, 1), (-1, 0), (0, -1), (1, -1), (1, 0), (0, 1)]

/-- The cells visited by starting at `c` and taking the given steps,
including the start and excluding the final position. -/
def hexWalk : (ℤ × ℤ) → List (ℤ × ℤ) → List (ℤ × ℤ)
  | _, [] => []
  | c, d :: ds => c :: hexWalk (c.1 + d.1, c.2 + d.2) ds

/-- The `r`-th ring of a hexagonal spiral in axial coordinates: the origin
for `r = 0`, otherwise the `6 * r` cells at hex-distance `r`, walked from
`(r, 0)`. -/
def hexRing (r : ℕ) : List (ℤ × ℤ) :=
  if r = 0 then [(0, 0)] else
    hexWalk ((r : ℤ), 0) (hexDirs.flatMap (fun d => List.replicate r d))

/-- Axial coordinates to plane coordinates on the triangular lattice
(y in units of the row height √3/2). -/
def axialToPoint (c : ℤ × ℤ) : Point := ((c.1 : ℚ) + (c.2 : ℚ) / 2, (c.2 : ℚ))

/-- Modelled from the spec: the hexagonal-fill triangular grid generator
`patterns.triangular_hex(n)` (source not among the sources).  It returns
`n` ordered points of a triangular lattice spiralling outward from the
origin, filling a roughly hexagonal boundary. -/
def triangular_hex (n : ℕ) : List Point :=
  ((((List.range (n + 1)).flatMap hexRing).take n).map axialToPoint)

/-- Modelled from the spec: the rectangular-fill triangular grid generator
`patterns.triangular_rect(rows, columns)` (source not among the sources).
It returns the `rows * columns` ordered points of a triangular lattice
filling a rectangular boundary: row-major, with every odd row offset by
half a unit (y in units of the row height √3/2). -/
def triangular_rect (rows columns : ℕ) : List Point :=
  (List.range rows).flatMap
    (fun y => (List.range columns).map
      (fun x => (((x : ℕ) : ℚ) + (if y % 2 = 1 then (1 : ℚ) / 2 else 0), ((y : ℕ) : ℚ))))

/-- The errors the register-carving methods can raise. -/
inductive RegisterError : Type
  /-- "A 'rows x columns' array doesn't fit a R x C
  RectangularLatticeLayout." — names the requested and available shapes. -/
  | outOfBounds (reqRows reqColumns availRows availColumns : ℕ)
  /-- "The desired register has more atoms (n_atoms) than there are traps
  in this TriangularLatticeLayout (number_of_traps)." — names both. -/
  | capacity (requested available : ℕ)
  /-- "A 'rows x atoms_per_row' rectangular subset of a triangular lattice
  has more atoms than there are traps in this TriangularLatticeLayout
  (number_of_traps)." -/
  | capacityRect (reqRows reqAtomsPerRow available : ℕ)
  /-- A requested coordinate has no matching trap (raised by the external
  lookup collaborator and propagated, per the spec). -/
  | resolution
deriving DecidableEq

/-- A register: qubit identifiers paired with the trap indices they were
resolved to (the result of `define_register(*trap_ids, qubit_ids=...)`,
modelled from the spec: a register factory taking trap identities and
per-trap qubit-ID strings). -/
structure Register : Type where
  qubits : List (String × ℕ)
deriving DecidableEq

/-- Index of the first trap equal to `p`, if any. -/
def findTrap : List Point → Point → Option ℕ
  | [], _ => none
  | q :: rest, p => if q = p then some 0 else (findTrap rest p).map (fun k => k + 1)

/-- Modelled from the spec: `RegisterLayout.get_traps_from_coordinates`
(its source file `register_layout.py` is not among the sources) — the
coordinate-to-trap-identity resolution operation, an exact-match lookup
over multiple coordinates that fails clearly (`none`) when a coordinate
has no corresponding trap. -/
def get_traps_from_coordinates (traps : List Point) : List Point → Option (List ℕ)
  | [] => some []
  | p :: ps =>
    match findTrap traps p, get_traps_from_coordinates traps ps with
    | some k, some ks => some (k :: ks)
    | _, _ => none

/-- The state fixed by `RectangularLatticeLayout.__init__`: `self._rows`,
`self._columns`, `self._x_spacing`, `self._y_spacing`. -/
structure RectangularLatticeLayout : Type where
  rows : ℕ
  columns : ℕ
  x_spacing : ℚ
  y_spacing : ℚ
deriving DecidableEq

/-- The trap coordinates stored by `RectangularLatticeLayout.__init__`:
`patterns.square_rect(rows, columns)` with x-coordinates scaled by
`x_spacing` and y-coordinates by `y_spacing`. -/
def RectangularLatticeLayout.traps (l : RectangularLatticeLayout) : List Point :=
  scalePts l.x_spacing l.y_spacing (square_rect l.rows l.columns)

/-- `RectangularLatticeLayout.rectangular_register(rows, columns, prefix)`.
The external coordinate-to-trap resolution call is passed in as `resolve`
(instantiated with `get_traps_from_coordinates` over the layout's stored
traps for the concrete behaviour). -/
def RectangularLatticeLayout.rectangular_register
    (resolve : List Point → Option (List ℕ)) (l : RectangularLatticeLayout)
    (rows columns : ℕ) (pfx : String) : Except RegisterError Register :=
  if l.rows < rows ∨ l.columns < columns then
    Except.error (RegisterError.outOfBounds rows columns l.rows l.columns)
  else
    match resolve (scalePts l.x_spacing l.y_spacing (square_rect rows columns)) with
    | none => Except.error RegisterError.resolution
    | some trap_ids =>
        Except.ok ⟨List.zip ((List.range trap_ids.length).map (fun i => pfx ++ toString i)) trap_ids⟩

/-- `RectangularLatticeLayout.square_register(side, prefix)`: delegates to
`rectangular_register(side, side, prefix)`. -/
def RectangularLatticeLayout.square_register
    (resolve : List Point → Option (List ℕ)) (l : RectangularLatticeLayout)
    (side : ℕ) (pfx : String) : Except RegisterError Register :=
  RectangularLatticeLayout.rectangular_register resolve l side side pfx

/-- The state fixed by `SquareLatticeLayout.__init__`: `self._rows`,
`self._columns`, `self._spacing`. -/
structure SquareLatticeLayout : Type where
  rows : ℕ
  columns : ℕ
  spacing : ℚ
deriving DecidableEq

/-- `SquareLatticeLayout.__init__` calls
`super().__init__(rows, columns, spacing, spacing)`: the constructed
object is the rectangular-lattice layout with both spacings equal. -/
def SquareLatticeLayout.toRectangular (l : SquareLatticeLayout) : RectangularLatticeLayout :=
  ⟨l.rows, l.columns, l.spacing, l.spacing⟩

/-- The trap coordinates a `SquareLatticeLayout` stores (those laid down by
the delegated `RectangularLatticeLayout.__init__`). -/
def SquareLatticeLayout.traps (l : SquareLatticeLayout) : List Point :=
  RectangularLatticeLayout.traps (SquareLatticeLayout.toRectangular l)

/-- The state fixed by `TriangularLatticeLayout.__init__`: the trap count
passed to the pattern generator and `self._spacing`. -/
structure TriangularLatticeLayout : Type where
  n_traps : ℕ
  spacing : ℚ
deriving DecidableEq

/-- The trap coordinates stored by `TriangularLatticeLayout.__init__`:
`patterns.triangular_hex(n_traps) * spacing` (both coordinates scaled). -/
def TriangularLatticeLayout.traps (l : TriangularLatticeLayout) : List Point :=
  scalePts l.spacing l.spacing (triangular_hex l.n_traps)

/-- `RegisterLayout.number_of_traps`: the number of stored trap
coordinates (base-class property, modelled from the spec). -/
def TriangularLatticeLayout.number_of_traps (l : TriangularLatticeLayout) : ℕ :=
  (TriangularLatticeLayout.traps l).length

/-- `TriangularLatticeLayout.hexagonal_register(n_atoms, prefix)`. -/
def TriangularLatticeLayout.hexagonal_register
    (resolve : List Point → Option (List ℕ)) (l : TriangularLatticeLayout)
    (n_atoms : ℕ) (pfx : String) : Except RegisterError Register :=
  if l.number_of_traps < n_atoms then
    Except.error (RegisterError.capacity n_atoms l.number_of_traps)
  else
    match resolve (scalePts l.spacing l.spacing (triangular_hex n_atoms)) with
    | none => Except.error RegisterError.resolution
    | some trap_ids =>
        Except.ok ⟨List.zip ((List.range trap_ids.length).map (fun i => pfx ++ toString i)) trap_ids⟩

/-- `TriangularLatticeLayout.rectangular_register(rows, atoms_per_row,
prefix)`. -/
def TriangularLatticeLayout.rectangular_register
    (resolve : List Point → Option (List ℕ)) (l : TriangularLatticeLayout)
    (rows atoms_per_row : ℕ) (pfx : String) : Except RegisterError Register :=
  if l.number_of_traps < rows * atoms_per_row then
    Except.error (RegisterError.capacityRect rows atoms_per_row l.number_of_traps)
  else
    match resolve (scalePts l.spacing l.spacing (triangular_rect rows atoms_per_row)) with
    | none => Except.error RegisterError.resolution
    | some trap_ids =>
        Except.ok ⟨List.zip ((List.range trap_ids.length).map (fun i => pfx ++ toString i)) trap_ids⟩

/-- The state fixed by `TriangularLatticeLayoutRectShape.__init__`; note
the constructor's first positional parameter is `columns` and its second
is `rows`, mirrored by the field order here. -/
structure TriangularLatticeLayoutRectShape : Type where
  columns : ℕ
  rows : ℕ
  spacing : ℚ
deriving DecidableEq

/-- Constructing a `TriangularLatticeLayoutRectShape` with the `spacing`
argument omitted: the Python default is `spacing = 5`. -/
def TriangularLatticeLayoutRectShape.ofShape (columns rows : ℕ) :
    TriangularLatticeLayoutRectShape :=
  ⟨columns, rows, 5⟩

/-- The trap coordinates stored by
`TriangularLatticeLayoutRectShape.__init__`:
`patterns.triangular_rect(self._rows, self._columns) * self._spacing`. -/
def TriangularLatticeLayoutRectShape.traps (l : TriangularLatticeLayoutRectShape) : List Point :=
  scalePts l.spacing l.spacing (triangular_rect l.rows l.columns)

/-- The rejection-sampling loop of `RandomLayout.__init__`, as a function
of the trace of candidate draws.  State: `pts` (accepted points, appended
at the end), `i` (the loop's iteration counter) and `draws` (number of
candidates consumed so far, for accounting).  Faithful to the source: when
`pts` is empty both branches `continue` without running `i += 1`, so `i`
only advances on draws made while at least one point is already accepted.
Returns `none` when the trace is exhausted while the loop would continue. -/
def randomLoop (radius s : ℚ) (n_traps max_iter : ℕ) :
    List Point → List Point → ℕ → ℕ → Option (List Point × ℕ)
  | [], pts, i, draws =>
    if pts.length < n_traps ∧ i < max_iter then none else some (pts, draws)
  | pt :: rest, pts, i, draws =>
    if pts.length < n_traps ∧ i < max_iter then
      if pts = [] then
        if sqNorm pt ≤ radius ^ 2 then
          randomLoop radius s n_traps max_iter rest (pts ++ [pt]) i (draws + 1)
        else
          randomLoop radius s n_traps max_iter rest pts i (draws + 1)
      else
        if sqNorm pt ≤ radius ^ 2 ∧ ∀ q ∈ pts, s < 0 ∨ s ^ 2 < sqDist q pt then
          randomLoop radius s n_traps max_iter rest (pts ++ [pt]) (i + 1) (draws + 1)
        else
          randomLoop radius s n_traps max_iter rest pts (i + 1) (draws + 1)
    else some (pts, draws)

/-- The error message of the post-loop capacity check. -/
def convergenceMsg : String := "Could not compute random traps in max iterations"

/-- The error `np.concatenate` raises on an empty list of arrays. -/
def concatenateMsg : String := "need at least one array to concatenate"

/-- `RandomLayout.__init__` on a given trace of candidate draws: run the
sampling loop, then raise if fewer than `n_traps` points were accepted,
then concatenate the accepted points (which fails when there are none) and
hand them to the base class.  `none` means the trace was too short to
reach the constructor's own exit. -/
def RandomLayout.run (n_traps : ℕ) (radius min_spacing : ℚ) (max_iter : ℕ)
    (stream : List Point) : Option (Except String (List Point)) :=
  match randomLoop radius min_spacing n_traps max_iter stream [] 0 0 with
  | none => none
  | some (pts, _) =>
    if pts.length < n_traps then some (Except.error convergenceMsg)
    else if pts = [] then some (Except.error concatenateMsg)
    else some (Except.ok pts)

/-- The acceptance guards are invariants of the sampling loop: if every
point accepted so far lies in the disk and the accepted points are
pairwise farther apart than `s`, the same holds of the loop's result. -/
lemma randomLoop_invariant (radius s : ℚ) (n m : ℕ) :
    ∀ (stream pts : List Point) (i draws : ℕ) (res : List Point × ℕ),
      (∀ p ∈ pts, sqNorm p ≤ radius ^ 2) →
      List.Pairwise (fun p q => s < 0 ∨ s ^ 2 < sqDist p q) pts →
      randomLoop radius s n m stream pts i draws = some res →
      (∀ p ∈ res.1, sqNorm p ≤ radius ^ 2) ∧
        List.Pairwise (fun p q => s < 0 ∨ s ^ 2 < sqDist p q) res.1 := by
  intro stream
  induction stream with
  | nil =>
    intro pts i draws res hdisk hpair hrun
    by_cases hcond : pts.length < n ∧ i < m
    · rw [randomLoop, if_pos hcond] at hrun
      exact absurd hrun (by simp)
    · rw [randomLoop, if_neg hcond] at hrun
      obtain rfl : (pts, draws) = res := Option.some.inj hrun
      exact ⟨hdisk, hpair⟩
  | cons pt rest ih =>
    intro pts i draws res hdisk hpair hrun
    by_cases hcond : pts.length < n ∧ i < m
    · rw [randomLoop, if_pos hcond] at hrun
      by_cases hnil : pts = []
      · rw [if_pos hnil] at hrun
        by_cases hin : sqNorm pt ≤ radius ^ 2
        · rw [if_pos hin] at hrun
          subst hnil
          refine ih _ _ _ _ (fun p hp => ?_) (by simp) hrun
          simp only [List.nil_append, List.mem_singleton] at hp
          subst hp
          exact hin
        · rw [if_neg hin] at hrun
          subst hnil
          exact ih _ _ _ _ hdisk hpair hrun
      · rw [if_neg hnil] at hrun
        by_cases hacc : sqNorm pt ≤ radius ^ 2 ∧ ∀ q ∈ pts, s < 0 ∨ s ^ 2 < sqDist q pt
        · rw [if_pos hacc] at hrun
          refine ih _ _ _ _ (fun p hp => ?_) ?_ hrun
          · rcases List.mem_append.mp hp with hp | hp
            · exact hdisk p hp
            · rw [List.mem_singleton] at hp
              subst hp
              exact hacc.1
          · refine List.pairwise_append.mpr ⟨hpair, List.pairwise_singleton _ _, ?_⟩
            intro a ha b hb
            rw [List.mem_singleton] at hb
            subst hb
            exact hacc.2 a ha
        · rw [if_neg hacc] at hrun
          exact ih _ _ _ _ hdisk hpair hrun
    · rw [randomLoop, if_neg hcond] at hrun
      obtain rfl : (pts, draws) = res := Option.some.inj hrun
      exact ⟨hdisk, hpair⟩

/-- C1: every trap point of a successfully constructed `RandomLayout` lies
within the disk of radius `radius` centred at the origin (squared distance
from the origin at most `radius ^ 2`), and every pair of distinct accepted
points is at Euclidean distance strictly greater than `min_spacing`
(encoded on squares: `dist > s` iff `s < 0 ∨ s ^ 2 < sqDist`, since a
distance is nonnegative). -/
theorem randomLayout_points_in_disk_and_spaced
    (n_traps max_iter : ℕ) (radius min_spacing : ℚ) (stream pts : List Point)
    (h : RandomLayout.run n_traps radius min_spacing max_iter stream =
      some (Except.ok pts)) :
    (∀ p ∈ pts, sqNorm p ≤ radius ^ 2) ∧
      List.Pairwise (fun p q => min_spacing < 0 ∨ min_spacing ^ 2 < sqDist p q) pts := by
  cases hloop : randomLoop radius min_spacing n_traps max_iter stream [] 0 0 with
  | none => rw [RandomLayout.run, hloop] at h; exact absurd h (by simp)
  | some res =>
    obtain ⟨pts0, d0⟩ := res
    have hrun_eq : RandomLayout.run n_traps radius min_spacing max_iter stream =
        (if pts0.length < n_traps then some (Except.error convergenceMsg)
         else if pts0 = [] then some (Except.error concatenateMsg)
         else some (Except.ok pts0)) := by
      rw [RandomLayout.run, hloop]
    rw [hrun_eq] at h
    split_ifs at h with h1 h2
    · exact absurd h (by simp)
    · exact absurd h (by simp)
    · obtain rfl : pts0 = pts := by simpa using h
      exact randomLoop_invariant radius min_spacing n_traps max_iter stream [] 0 0 (pts0, d0)
        (by simp) (by simp) hloop

/-- Witness for C1 at a concrete run: two draws, both accepted. -/
theorem randomLayout_points_in_disk_and_spaced_witness :
    (∀ p ∈ [((0 : ℚ), (0 : ℚ)), (3, 0)], sqNorm p ≤ (5 : ℚ) ^ 2) ∧
      List.Pairwise
        (fun p q => (1 : ℚ) < 0 ∨ (1 : ℚ) ^ 2 < sqDist p q)
        [((0 : ℚ), (0 : ℚ)), (3, 0)] :=
  randomLayout_points_in_disk_and_spaced 2 10 5 1 [(0, 0), (3, 0)] [(0, 0), (3, 0)]
    (by
      norm_num [RandomLayout.run, randomLoop, sqNorm, sqDist]
      intro hcontra
      exact absurd hcontra (by simp))

/-- C2: evaluation of the sampling loop at a failing input.  With
`n_traps = 1`, `radius = 1`, `min_spacing = 1` and `max_iter = 1`, a first
candidate at `(9/10, 9/10)` (inside the sampling square, outside the disk)
followed by `(0, 0)` makes the loop consume 2 candidate draws — more than
`max_iter = 1` — because neither branch taken while no point is yet
accepted runs `i += 1`. -/
theorem randomLoop_draw_count_exceeds_max_iter :
    randomLoop 1 1 1 1 [(9 / 10, 9 / 10), (0, 0)] [] 0 0 = some ([(0, 0)], 2) ∧
      (1 : ℕ) < 2 := by
  constructor
  · norm_num [randomLoop, sqNorm]
  · norm_num

/-- C3: whenever the sampling loop stops with fewer than `n_traps` accepted
points, the constructor raises the convergence error and no layout value is
produced; in particular with `max_iter = 0` and `n_traps > 0` it always
fails, on every trace of draws. -/
theorem randomLayout_error_when_short
    (n_traps max_iter : ℕ) (radius min_spacing : ℚ) (stream : List Point)
    (hn : 0 < n_traps) :
    (∀ pts draws,
        randomLoop radius min_spacing n_traps max_iter stream [] 0 0 = some (pts, draws) →
        pts.length < n_traps →
        RandomLayout.run n_traps radius min_spacing max_iter stream =
          some (Except.error convergenceMsg)) ∧
    (max_iter = 0 →
      RandomLayout.run n_traps radius min_spacing max_iter stream =
        some (Except.error convergenceMsg)) := by
  constructor
  · intro pts draws hloop hlen
    rw [RandomLayout.run, hloop]
    simp [hlen]
  · intro hm
    subst hm
    have hloop : randomLoop radius min_spacing n_traps 0 stream [] 0 0 = some ([], 0) := by
      cases stream <;> simp [randomLoop]
    rw [RandomLayout.run, hloop]
    simp [hn]

/-- Witness for C3: with one requested trap and `max_iter = 0` the
constructor fails on the empty trace. -/
theorem randomLayout_error_when_short_witness :
    (∀ pts draws,
        randomLoop 1 1 1 0 [] [] 0 0 = some (pts, draws) →
        pts.length < 1 →
        RandomLayout.run 1 1 1 0 [] = some (Except.error convergenceMsg)) ∧
    ((0 : ℕ) = 0 →
      RandomLayout.run 1 1 1 0 [] = some (Except.error convergenceMsg)) :=
  randomLayout_error_when_short 1 0 1 1 [] (by norm_num)

/-- C10: with `n_traps = 0` the constructor always raises: the loop accepts
no points, the capacity check passes vacuously, and concatenating the empty
point list fails, so an empty `RandomLayout` is never constructed —
on every trace of draws and for every `max_iter`. -/
theorem randomLayout_zero_traps_always_fails
    (radius min_spacing : ℚ) (max_iter : ℕ) (stream : List Point) :
    RandomLayout.run 0 radius min_spacing max_iter stream =
      some (Except.error concatenateMsg) := by
  have hloop : randomLoop radius min_spacing 0 max_iter stream [] 0 0 = some ([], 0) := by
    cases stream <;> simp [randomLoop]
  rw [RandomLayout.run, hloop]
  simp

/-- The unit rectangular grid has `rows * columns` points. -/
lemma length_square_rect (rows columns : ℕ) :
    (square_rect rows columns).length = rows * columns := by
  rw [square_rect, List.length_flatMap]
  simp only [Function.comp_def, List.length_map, List.length_range]
  rw [List.map_const', List.length_range, List.sum_replicate, smul_eq_mul]

/-- Membership in the unit rectangular grid. -/
lemma mem_square_rect {p : Point} {rows columns : ℕ} :
    p ∈ square_rect rows columns ↔
      ∃ y < rows, ∃ x < columns, p = ((x : ℚ), (y : ℚ)) := by
  rw [square_rect, List.mem_flatMap]
  constructor
  · rintro ⟨y, hy, hp⟩
    rw [List.mem_range] at hy
    obtain ⟨x, hx, hfx⟩ := List.mem_map.mp hp
    rw [List.mem_range] at hx
    exact ⟨y, hy, x, hx, hfx.symm⟩
  · rintro ⟨y, hy, x, hx, rfl⟩
    exact ⟨y, List.mem_range.mpr hy, List.mem_map.mpr ⟨x, List.mem_range.mpr hx, rfl⟩⟩

/-- Membership in the scaled trap grid of a rectangular lattice layout. -/
lemma mem_rectangular_traps {q : Point} {l : RectangularLatticeLayout} :
    q ∈ RectangularLatticeLayout.traps l ↔
      ∃ y < l.rows, ∃ x < l.columns,
        q = ((x : ℚ) * l.x_spacing, (y : ℚ) * l.y_spacing) := by
  constructor
  · intro hq
    obtain ⟨p, hp, rfl⟩ := List.mem_map.mp hq
    obtain ⟨y, hy, x, hx, rfl⟩ := mem_square_rect.mp hp
    exact ⟨y, hy, x, hx, rfl⟩
  · rintro ⟨y, hy, x, hx, rfl⟩
    exact List.mem_map.mpr ⟨((x : ℚ), (y : ℚ)), mem_square_rect.mpr ⟨y, hy, x, hx, rfl⟩, rfl⟩

/-- The number of stored traps of a rectangular lattice layout. -/
lemma length_rectangular_traps (l : RectangularLatticeLayout) :
    (RectangularLatticeLayout.traps l).length = l.rows * l.columns := by
  rw [RectangularLatticeLayout.traps, scalePts, List.length_map, length_square_rect]

/-- C6, as amended: a rectangular lattice layout stores exactly
`rows * columns` trap coordinates, the scaled image of the unit
rectangular grid; and for nonnegative spacings its x-coordinates range
over an interval of width `(columns - 1) * x_spacing` and its
y-coordinates over an interval of width `(rows - 1) * y_spacing`.  The
nonnegativity restriction is forced: for a negative spacing the claimed
span equality fails (see the counterexample below), the extent being the
absolute value instead. -/
theorem rectangularLatticeLayout_count_and_span
    (rows columns : ℕ) (x_spacing y_spacing : ℚ)
    (hr : 0 < rows) (hc : 0 < columns) (hx : 0 ≤ x_spacing) (hy : 0 ≤ y_spacing) :
    (RectangularLatticeLayout.traps ⟨rows, columns, x_spacing, y_spacing⟩).length
        = rows * columns ∧
    RectangularLatticeLayout.traps ⟨rows, columns, x_spacing, y_spacing⟩ =
      scalePts x_spacing y_spacing (square_rect rows columns) ∧
    (∃ pmin ∈ RectangularLatticeLayout.traps ⟨rows, columns, x_spacing, y_spacing⟩,
      ∃ pmax ∈ RectangularLatticeLayout.traps ⟨rows, columns, x_spacing, y_spacing⟩,
        pmax.1 - pmin.1 = ((columns : ℚ) - 1) * x_spacing ∧
          ∀ q ∈ RectangularLatticeLayout.traps ⟨rows, columns, x_spacing, y_spacing⟩,
            pmin.1 ≤ q.1 ∧ q.1 ≤ pmax.1) ∧
    (∃ pmin ∈ RectangularLatticeLayout.traps ⟨rows, columns, x_spacing, y_spacing⟩,
      ∃ pmax ∈ RectangularLatticeLayout.traps ⟨rows, columns, x_spacing, y_spacing⟩,
        pmax.2 - pmin.2 = ((rows : ℚ) - 1) * y_spacing ∧
          ∀ q ∈ RectangularLatticeLayout.traps ⟨rows, columns, x_spacing, y_spacing⟩,
            pmin.2 ≤ q.2 ∧ q.2 ≤ pmax.2) := by
  have hc1 : ((columns - 1 : ℕ) : ℚ) = (columns : ℚ) - 1 := by
    push_cast [Nat.cast_sub hc]
    ring
  have hr1 : ((rows - 1 : ℕ) : ℚ) = (rows : ℚ) - 1 := by
    push_cast [Nat.cast_sub hr]
    ring
  refine ⟨length_rectangular_traps _, rfl, ?_, ?_⟩
  · refine ⟨((0 : ℚ) * x_spacing, (0 : ℚ) * y_spacing),
      mem_rectangular_traps.mpr ⟨0, hr, 0, hc, by norm_num⟩,
      (((columns - 1 : ℕ) : ℚ) * x_spacing, (0 : ℚ) * y_spacing),
      mem_rectangular_traps.mpr ⟨0, hr, columns - 1, Nat.sub_lt hc Nat.one_pos, by norm_num⟩, ?_, ?_⟩
    · rw [hc1]
      ring
    · intro q hq
      obtain ⟨y, hy, x, hxlt, rfl⟩ := mem_rectangular_traps.mp hq
      constructor
      · simpa using mul_nonneg (by positivity) hx
      · refine mul_le_mul_of_nonneg_right ?_ hx
        rw [hc1]
        have : (x : ℚ) + 1 ≤ (columns : ℚ) := by exact_mod_cast Nat.succ_le_of_lt hxlt
        linarith
  · refine ⟨((0 : ℚ) * x_spacing, (0 : ℚ) * y_spacing),
      mem_rectangular_traps.mpr ⟨0, hr, 0, hc, by norm_num⟩,
      ((0 : ℚ) * x_spacing, ((rows - 1 : ℕ) : ℚ) * y_spacing),
      mem_rectangular_traps.mpr ⟨rows - 1, Nat.sub_lt hr Nat.one_pos, 0, hc, by norm_num⟩, ?_, ?_⟩
    · rw [hr1]
      ring
    · intro q hq
      obtain ⟨y, hylt, x, hxlt, rfl⟩ := mem_rectangular_traps.mp hq
      constructor
      · simpa using mul_nonneg (by positivity) hy
      · refine mul_le_mul_of_nonneg_right ?_ hy
        rw [hr1]
        have : (y : ℚ) + 1 ≤ (rows : ℚ) := by exact_mod_cast Nat.succ_le_of_lt hylt
        linarith

/-- Witness for C6 at a concrete 2 x 3 layout with spacings 2 and 1. -/
theorem rectangularLatticeLayout_count_and_span_witness :
    (RectangularLatticeLayout.traps ⟨2, 3, 2, 1⟩).length = 2 * 3 ∧
    RectangularLatticeLayout.traps ⟨2, 3, 2, 1⟩ =
      scalePts 2 1 (square_rect 2 3) ∧
    (∃ pmin ∈ RectangularLatticeLayout.traps ⟨2, 3, 2, 1⟩,
      ∃ pmax ∈ RectangularLatticeLayout.traps ⟨2, 3, 2, 1⟩,
        pmax.1 - pmin.1 = ((3 : ℚ) - 1) * 2 ∧
          ∀ q ∈ RectangularLatticeLayout.traps ⟨2, 3, 2, 1⟩,
            pmin.1 ≤ q.1 ∧ q.1 ≤ pmax.1) ∧
    (∃ pmin ∈ RectangularLatticeLayout.traps ⟨2, 3, 2, 1⟩,
      ∃ pmax ∈ RectangularLatticeLayout.traps ⟨2, 3, 2, 1⟩,
        pmax.2 - pmin.2 = ((2 : ℚ) - 1) * 1 ∧
          ∀ q ∈ RectangularLatticeLayout.traps ⟨2, 3, 2, 1⟩,
            pmin.2 ≤ q.2 ∧ q.2 ≤ pmax.2) :=
  rectangularLatticeLayout_count_and_span 2 3 2 1 (by norm_num) (by norm_num)
    (by norm_num) (by norm_num)

/-- C6 counterexample: the claim as stated — quantifying over every
spacing, the spec allowing "any real, including negative/zero" — fails at
`RectangularLatticeLayout(1, 2, -1, 1)`.  Its stored traps are `(0, 0)`
and `(-1, 0)`, whose x-coordinates span an extent of `1`, while
`(columns - 1) * x_spacing = -1`: no pair of traps realises a span of
`-1` while bounding all x-coordinates. -/
theorem rectangularLatticeLayout_span_counterexample :
    ¬ (∃ pmin ∈ RectangularLatticeLayout.traps ⟨1, 2, -1, 1⟩,
        ∃ pmax ∈ RectangularLatticeLayout.traps ⟨1, 2, -1, 1⟩,
          pmax.1 - pmin.1 = ((2 : ℚ) - 1) * (-1) ∧
            ∀ q ∈ RectangularLatticeLayout.traps ⟨1, 2, -1, 1⟩,
              pmin.1 ≤ q.1 ∧ q.1 ≤ pmax.1) := by
  have htraps : RectangularLatticeLayout.traps ⟨1, 2, -1, 1⟩ =
      [((0 : ℚ), (0 : ℚ)), (-1, 0)] := by
    norm_num [RectangularLatticeLayout.traps, scalePts, square_rect, List.range_succ]
  rw [htraps]
  rintro ⟨pmin, hmin, pmax, hmax, hdiff, hbound⟩
  simp only [List.mem_cons, List.not_mem_nil, or_false] at hmin hmax
  have h1 := hbound (-1, 0) (by simp)
  rcases hmin with rfl | rfl <;> rcases hmax with rfl | rfl <;> norm_num at hdiff h1

/-- C7: a `SquareLatticeLayout(rows, columns, spacing)` stores trap
coordinates identical to those of
`RectangularLatticeLayout(rows, columns, spacing, spacing)` — its
constructor delegates with both spacings equal. -/
theorem squareLatticeLayout_traps_eq_rectangular
    (rows columns : ℕ) (spacing : ℚ) :
    SquareLatticeLayout.traps ⟨rows, columns, spacing⟩ =
      RectangularLatticeLayout.traps ⟨rows, columns, spacing, spacing⟩ := rfl

/-- C9: a `TriangularLatticeLayoutRectShape` stores exactly the points of
the rectangular-fill triangular grid generator for its `rows` and
`columns`, each coordinate multiplied by `spacing`; the constructor's
first positional parameter is `columns` and its second is `rows` (the
structure fields are in that order), while the generator is called with
`rows` first; omitting `spacing` defaults it to 5. -/
theorem triangularRectShape_traps_spec (columns rows : ℕ) (spacing : ℚ) :
    TriangularLatticeLayoutRectShape.traps ⟨columns, rows, spacing⟩ =
      scalePts spacing spacing (triangular_rect rows columns) ∧
    TriangularLatticeLayoutRectShape.ofShape columns rows =
      (⟨columns, rows, 5⟩ : TriangularLatticeLayoutRectShape) ∧
    TriangularLatticeLayoutRectShape.traps
        (TriangularLatticeLayoutRectShape.ofShape columns rows) =
      scalePts 5 5 (triangular_rect rows columns) :=
  ⟨rfl, rfl, rfl⟩

/-- C4: `rectangular_register(rows, columns)` on a rectangular lattice
layout returns the out-of-bounds error — naming the requested and the
available shape — exactly when `rows > R` or `columns > C`, for every
possible behaviour of the external trap-resolution collaborator (so the
check precedes any resolution attempt), and an `ok` register is only ever
produced in bounds. -/
theorem rectangular_register_out_of_bounds_iff
    (resolve : List Point → Option (List ℕ)) (l : RectangularLatticeLayout)
    (rows columns : ℕ) (pfx : String) :
    (RectangularLatticeLayout.rectangular_register resolve l rows columns pfx =
        Except.error (RegisterError.outOfBounds rows columns l.rows l.columns) ↔
      (l.rows < rows ∨ l.columns < columns)) ∧
    (∀ reg,
      RectangularLatticeLayout.rectangular_register resolve l rows columns pfx =
          Except.ok reg →
        rows ≤ l.rows ∧ columns ≤ l.columns) := by
  rw [RectangularLatticeLayout.rectangular_register]
  by_cases hb : l.rows < rows ∨ l.columns < columns
  · rw [if_pos hb]
    exact ⟨by simp [hb], by simp⟩
  · rw [if_neg hb]
    push_neg at hb
    refine ⟨?_, fun reg _ => hb⟩
    cases hres : resolve (scalePts l.x_spacing l.y_spacing (square_rect rows columns)) with
    | none => simp [hb.1.not_lt, hb.2.not_lt]
    | some ids => simp [hb.1.not_lt, hb.2.not_lt]

/-- Witness for C4: a 3 x 1 request on a 2 x 2 layout is out of bounds. -/
theorem rectangular_register_out_of_bounds_iff_witness :
    (RectangularLatticeLayout.rectangular_register
          (get_traps_from_coordinates (RectangularLatticeLayout.traps ⟨2, 2, 1, 1⟩))
          ⟨2, 2, 1, 1⟩ 3 1 "q" =
        Except.error (RegisterError.outOfBounds 3 1 2 2) ↔
      ((2 : ℕ) < 3 ∨ (2 : ℕ) < 1)) ∧
    (∀ reg,
      RectangularLatticeLayout.rectangular_register
          (get_traps_from_coordinates (RectangularLatticeLayout.traps ⟨2, 2, 1, 1⟩))
          ⟨2, 2, 1, 1⟩ 3 1 "q" =
          Except.ok reg →
        (3 : ℕ) ≤ 2 ∧ (1 : ℕ) ≤ 2) :=
  rectangular_register_out_of_bounds_iff
    (get_traps_from_coordinates (RectangularLatticeLayout.traps ⟨2, 2, 1, 1⟩))
    ⟨2, 2, 1, 1⟩ 3 1 "q"

/-- C5: on a triangular lattice layout, `hexagonal_register(n_atoms)`
returns the capacity error — naming `n_atoms` and `number_of_traps` —
exactly when `n_atoms > number_of_traps`, and
`rectangular_register(rows, atoms_per_row)` returns its capacity error
exactly when `rows * atoms_per_row > number_of_traps`; both for every
behaviour of the external trap-resolution collaborator, so the checks
precede any resolution attempt. -/
theorem triangular_register_capacity_iff
    (resolve : List Point → Option (List ℕ)) (l : TriangularLatticeLayout)
    (n_atoms rows atoms_per_row : ℕ) (pfx : String) :
    (TriangularLatticeLayout.hexagonal_register resolve l n_atoms pfx =
        Except.error (RegisterError.capacity n_atoms l.number_of_traps) ↔
      l.number_of_traps < n_atoms) ∧
    (TriangularLatticeLayout.rectangular_register resolve l rows atoms_per_row pfx =
        Except.error
          (RegisterError.capacityRect rows atoms_per_row l.number_of_traps) ↔
      l.number_of_traps < rows * atoms_per_row) := by
  constructor
  · rw [TriangularLatticeLayout.hexagonal_register]
    by_cases hb : l.number_of_traps < n_atoms
    · rw [if_pos hb]
      simp [hb]
    · rw [if_neg hb]
      cases hres : resolve (scalePts l.spacing l.spacing (triangular_hex n_atoms)) with
      | none => simp [hb]
      | some ids => simp [hb]
  · rw [TriangularLatticeLayout.rectangular_register]
    by_cases hb : l.number_of_traps < rows * atoms_per_row
    · rw [if_pos hb]
      simp [hb]
    · rw [if_neg hb]
      cases hres : resolve (scalePts l.spacing l.spacing (triangular_rect rows atoms_per_row)) with
      | none => simp [hb]
      | some ids => simp [hb]

/-- Witness for C5 on a 7-trap triangular layout: requesting 8 atoms (or a
4 x 2 rectangle) is over capacity. -/
theorem triangular_register_capacity_iff_witness :
    (TriangularLatticeLayout.hexagonal_register
          (get_traps_from_coordinates (TriangularLatticeLayout.traps ⟨7, 5⟩))
          ⟨7, 5⟩ 8 "q" =
        Except.error
          (RegisterError.capacity 8 (TriangularLatticeLayout.number_of_traps ⟨7, 5⟩)) ↔
      TriangularLatticeLayout.number_of_traps ⟨7, 5⟩ < 8) ∧
    (TriangularLatticeLayout.rectangular_register
          (get_traps_from_coordinates (TriangularLatticeLayout.traps ⟨7, 5⟩))
          ⟨7, 5⟩ 4 2 "q" =
        Except.error
          (RegisterError.capacityRect 4 2 (TriangularLatticeLayout.number_of_traps ⟨7, 5⟩)) ↔
      TriangularLatticeLayout.number_of_traps ⟨7, 5⟩ < 4 * 2) :=
  triangular_register_capacity_iff
    (get_traps_from_coordinates (TriangularLatticeLayout.traps ⟨7, 5⟩))
    ⟨7, 5⟩ 8 4 2 "q"

/-- Exact-match lookup succeeds on any coordinate that is a stored trap. -/
lemma findTrap_of_mem {p : Point} {traps : List Point} (h : p ∈ traps) :
    ∃ k, findTrap traps p = some k := by
  induction traps with
  | nil => exact absurd h (by simp)
  | cons q rest ih =>
    by_cases hq : q = p
    · exact ⟨0, by rw [findTrap, if_pos hq]⟩
    · have hrest : p ∈ rest := by
        rcases List.mem_cons.mp h with h | h
        · exact absurd h.symm hq
        · exact h
      obtain ⟨k, hk⟩ := ih hrest
      exact ⟨k + 1, by rw [findTrap, if_neg hq, hk]; rfl⟩

/-- Multi-coordinate resolution succeeds, preserving the request length,
whenever every requested coordinate is a stored trap. -/
lemma get_traps_total {traps : List Point} :
    ∀ {pts : List Point}, (∀ p ∈ pts, p ∈ traps) →
      ∃ ids, get_traps_from_coordinates traps pts = some ids ∧
        ids.length = pts.length := by
  intro pts
  induction pts with
  | nil => exact fun _ => ⟨[], rfl, rfl⟩
  | cons p ps ih =>
    intro hmem
    obtain ⟨k, hk⟩ := findTrap_of_mem (hmem p (by simp))
    obtain ⟨ids, hids, hlen⟩ := ih (fun q hq => hmem q (by simp [hq]))
    refine ⟨k :: ids, ?_, by simp [hlen]⟩
    rw [get_traps_from_coordinates, hk, hids]

/-- C8: `square_register(side, prefix)` is exactly
`rectangular_register(side, side, prefix)` (for every behaviour of the
external resolution collaborator), and on a layout whose shape is
`side x side` it returns a register of exactly `side * side` qubits whose
IDs are the prefix followed by `0 .. side * side - 1` in generation
order. -/
theorem square_register_delegates_and_ids
    (l : RectangularLatticeLayout) (side : ℕ) (pfx : String) :
    (∀ resolve, RectangularLatticeLayout.square_register resolve l side pfx =
        RectangularLatticeLayout.rectangular_register resolve l side side pfx) ∧
    (l.rows = side → l.columns = side →
      ∃ reg,
        RectangularLatticeLayout.square_register
            (get_traps_from_coordinates (RectangularLatticeLayout.traps l))
            l side pfx =
          Except.ok reg ∧
        reg.qubits.length = side * side ∧
        reg.qubits.map Prod.fst =
          (List.range (side * side)).map (fun i => pfx ++ toString i)) := by
  refine ⟨fun resolve => rfl, fun hrows hcols => ?_⟩
  have hpts : scalePts l.x_spacing l.y_spacing (square_rect side side) =
      RectangularLatticeLayout.traps l := by
    rw [RectangularLatticeLayout.traps, hrows, hcols]
  obtain ⟨ids, hids, hlen⟩ :=
    @get_traps_total (RectangularLatticeLayout.traps l)
      (RectangularLatticeLayout.traps l) (fun p hp => hp)
  have hlen' : ids.length = side * side := by
    rw [hlen, length_rectangular_traps, hrows, hcols]
  refine ⟨⟨List.zip ((List.range ids.length).map (fun i => pfx ++ toString i)) ids⟩,
    ?_, ?_, ?_⟩
  · have hnb : ¬ (l.rows < side ∨ l.columns < side) := by omega
    rw [RectangularLatticeLayout.square_register,
      RectangularLatticeLayout.rectangular_register, if_neg hnb, hpts, hids]
  · simp [List.length_zip, hlen']
  · rw [List.map_fst_zip _ _ (by simp), hlen']

/-- Witness for C8 on a 1 x 1 layout. -/
theorem square_register_delegates_and_ids_witness :
    (∀ resolve,
      RectangularLatticeLayout.square_register resolve ⟨1, 1, 2, 3⟩ 1 "q" =
        RectangularLatticeLayout.rectangular_register resolve ⟨1, 1, 2, 3⟩ 1 1 "q") ∧
    (∃ reg,
      RectangularLatticeLayout.square_register
          (get_traps_from_coordinates (RectangularLatticeLayout.traps ⟨1, 1, 2, 3⟩))
          ⟨1, 1, 2, 3⟩ 1 "q" =
        Except.ok reg ∧
      reg.qubits.length = 1 * 1 ∧
      reg.qubits.map Prod.fst =
        (List.range (1 * 1)).map (fun i => "q" ++ toString i)) :=
  ⟨(square_register_delegates_and_ids ⟨1, 1, 2, 3⟩ 1 "q").1,
    (square_register_delegates_and_ids ⟨1, 1, 2, 3⟩ 1 "q").2 rfl rfl⟩

end Pulser
